import Mathlib

/-!
Verification of the inter-agent message bus implemented in
`src/core/messaging.py` (class `Mensaje`, class `SistemaMensajeria`) and the
bus-facing part of the agent base class in `src/core/agent.py`
(`_procesar_mensaje_entrante`, `enviar_mensaje`, `obtener_historial_mensajes`).

Modelling conventions for the shallow embedding:
* `datetime` values are modelled as naturals, ordered as the clock is;
  `datetime.now()` is a value drawn from a monotone clock.
* uuid4-generated message identifiers are modelled as naturals drawn from a
  counter carried next to the bus state: the counter stands for the uuid
  generator, each draw being distinct from every earlier draw.
* Python exceptions are modelled with `Except String`; a `try/except` block
  whose except-branch only prints becomes a `match` whose branches continue
  identically.
* Python dictionaries (`metadata`, the subscription table, the per-agent
  callback table) are association lists; `metadata` values are modelled by
  the booleans the code actually stores in the flags it sets.
-/

/-- `messaging.py`, class `Mensaje`: one unit of communication.  Field for
field the attributes set by `Mensaje.__init__`. -/
structure Mensaje where
  id : Nat
  timestamp : Nat
  emisor : String
  destinatario : Option String
  tipo : String
  contenido : String
  id_respuesta : Option Nat
  metadata : List (String × Bool)
deriving DecidableEq, Repr

/-- `Mensaje.__init__`: `id` is the supplied `id_mensaje` or a fresh uuid4
(modelled by the fresh counter value `gen`); `timestamp` is `datetime.now()`
(modelled by the clock value, which in the bus model coincides with the
counter); `metadata` defaults to the empty dict (`metadata or {}`). -/
def Mensaje.nuevo (gen : Nat) (emisor : String) (destinatario : Option String)
    (tipo contenido : String) (id_mensaje : Option Nat) (id_respuesta : Option Nat)
    (metadata : Option (List (String × Bool))) : Mensaje :=
  { id := id_mensaje.getD gen
    timestamp := gen
    emisor := emisor
    destinatario := destinatario
    tipo := tipo
    contenido := contenido
    id_respuesta := id_respuesta
    metadata := metadata.getD [] }

/-- A callback registered with `SistemaMensajeria.suscribir`.  `cid`
identifies the callback object (so invocations can be traced); `run` is its
behaviour, which may raise (`Except.error`). -/
structure Suscriptor where
  cid : Nat
  run : Mensaje → Except String Unit

/-- `messaging.py`, class `SistemaMensajeria`: the in-memory history
`self.mensajes`, the subscription dict `self.suscripciones`, and whether
`self.ruta_almacenamiento` is configured. -/
structure SistemaMensajeria where
  mensajes : List Mensaje
  suscripciones : List (String × List Suscriptor)
  persistencia : Bool

namespace SistemaMensajeria

/-- `self.suscripciones[tipo]` when present, else no callbacks (the code
guards with `if tipo in self.suscripciones`). -/
def subsDe (s : SistemaMensajeria) (tipo : String) : List Suscriptor :=
  (s.suscripciones.lookup tipo).getD []

/-- dict insertion used by `suscribir`: create the key with an empty list if
absent, then append the callback. -/
def agregarSub : List (String × List Suscriptor) → String → Suscriptor →
    List (String × List Suscriptor)
  | [], tipo, cb => [(tipo, [cb])]
  | (k, l) :: resto, tipo, cb =>
    if k = tipo then (k, l ++ [cb]) :: resto
    else (k, l) :: agregarSub resto tipo cb

/-- `SistemaMensajeria.suscribir`. -/
def suscribir (s : SistemaMensajeria) (tipo : String) (cb : Suscriptor) :
    SistemaMensajeria :=
  { s with suscripciones := agregarSub s.suscripciones tipo cb }

/-- The fan-out loop of `publicar`: each callback is invoked inside
`try/except`; an exception is caught, printed, and the loop continues with
the remaining callbacks.  The result is the trace of invocations, each
recorded as (callback id, message id). -/
def notifica (m : Mensaje) : List Suscriptor → List (Nat × Nat)
  | [] => []
  | cb :: resto =>
    match cb.run m with
    | Except.ok _ => (cb.cid, m.id) :: notifica m resto
    | Except.error _ => (cb.cid, m.id) :: notifica m resto

/-- `SistemaMensajeria._guardar_mensaje`: the disk write may raise
(`fallaDisco` says whether it does); the exception is caught and only
reported, so the call always returns normally. -/
def guardar_mensaje (fallaDisco : Bool) (_m : Mensaje) : Unit :=
  match (if fallaDisco then Except.error "Error al guardar mensaje en disco"
         else Except.ok () : Except String Unit) with
  | Except.ok _ => ()
  | Except.error _ => ()

/-- `SistemaMensajeria.publicar`: append the message to the in-memory
history, write it to the log when persistence is configured (the write's
outcome is discarded because `_guardar_mensaje` catches its own errors),
then notify the subscribers of `m.tipo` followed by the wildcard
subscribers.  Returns the new state, the invocation trace, and the message
id, and — being a total function — never propagates an exception to its
caller. -/
def publicar (s : SistemaMensajeria) (fallaDisco : Bool) (m : Mensaje) :
    SistemaMensajeria × List (Nat × Nat) × Nat :=
  let s1 : SistemaMensajeria := { s with mensajes := s.mensajes ++ [m] }
  let _guardado := if s1.persistencia then some (guardar_mensaje fallaDisco m) else none
  let traza := notifica m (subsDe s1 m.tipo) ++ notifica m (subsDe s1 "*")
  (s1, traza, m.id)

/-- Publishing a batch of messages one after the other. -/
def publicar_varios (s : SistemaMensajeria) (fallaDisco : Bool) :
    List Mensaje → SistemaMensajeria
  | [] => s
  | m :: resto => publicar_varios (publicar s fallaDisco m).1 fallaDisco resto

/-- `SistemaMensajeria.obtener_mensaje`: linear scan returning the first
message whose id matches, `none` when there is none. -/
def obtener_mensaje (s : SistemaMensajeria) (id_mensaje : Nat) : Option Mensaje :=
  s.mensajes.find? (fun x => x.id == id_mensaje)

/-- `SistemaMensajeria.obtener_respuestas` on a history list: all messages
whose `id_respuesta` equals the given id, in history (publish) order. -/
def obtener_respuestas (mensajes : List Mensaje) (id_mensaje : Nat) : List Mensaje :=
  mensajes.filter (fun x => x.id_respuesta == some id_mensaje)

end SistemaMensajeria

/-! Helper lemmas about the registry-level bus. -/

/-! The agent layer (`src/core/agent.py`).  Every constructed agent
subscribes `_procesar_mensaje_entrante` to the wildcard kind, so at this
level a publish fans out to the dispatcher of every registered agent, in
registration order; a dispatcher may itself publish (automatic replies and
error notices), re-entering the bus.  The re-entrancy depth is bounded by a
fuel argument standing for Python's recursion limit; every theorem below
supplies enough fuel for the scenario it describes. -/

/-- An agent endpoint: its configured name (`config.name`) and its handler
table `self.callbacks` (dict from message kind to handler).  A handler
returns a string — empty meaning "no automatic reply" — or raises. -/
structure Agente where
  name : String
  callbacks : List (String × (Mensaje → Except String String))

/-- The state shared by the agents: the bus history, plus the counter that
models the uuid generator and the clock used when a dispatcher constructs a
new message. -/
structure EstadoBus where
  mensajes : List Mensaje
  ctr : Nat

/-- `Agent.enviar_mensaje` in its fire-and-forget form as called from inside
`_procesar_mensaje_entrante`: construct a fresh `Mensaje` (fresh id and
creation time drawn from the counter) and publish it through `pub`, the
shared bus's publish. -/
def enviarCon (pub : EstadoBus → Mensaje → EstadoBus) (st : EstadoBus)
    (emisor destinatario tipo contenido : String) (id_respuesta : Option Nat)
    (metadata : List (String × Bool)) : EstadoBus :=
  pub { st with ctr := st.ctr + 1 }
    (Mensaje.nuevo st.ctr emisor (some destinatario) tipo contenido none
      id_respuesta (some metadata))

/-- `Agent._procesar_mensaje_entrante`: ignore any message whose recipient
is not exactly this agent's name (broadcasts included); otherwise look up a
handler for the message's kind; if the handler returns a non-empty result,
publish an automatic reply (kind `respuesta_` + original kind,
`id_respuesta` = original id, metadata flag `automatico`); if the handler
raises, catch the exception and publish an error notice back to the sender
(kind `error`, the error text, `id_respuesta` = original id, metadata flag
`error`) instead of letting the exception escape into the bus's fan-out
loop. -/
def procesar_mensaje_entrante (pub : EstadoBus → Mensaje → EstadoBus)
    (st : EstadoBus) (a : Agente) (m : Mensaje) : EstadoBus :=
  if m.destinatario ≠ some a.name then st
  else
    match a.callbacks.lookup m.tipo with
    | none => st
    | some handler =>
      match handler m with
      | Except.ok respuesta =>
        if respuesta = "" then st
        else
          enviarCon pub st a.name m.emisor ("respuesta_" ++ m.tipo) respuesta
            (some m.id) [("automatico", true)]
      | Except.error e =>
        enviarCon pub st a.name m.emisor "error"
          ("Error procesando mensaje " ++ m.tipo ++ ": " ++ e) (some m.id)
          [("error", true)]

/-- `SistemaMensajeria.publicar` as seen through the registered agents:
append the message to the history, then run the wildcard subscriber list —
the dispatcher of every agent, in registration order.  Nested publishes run
with one unit of fuel less; fuel 0 only appends (the recursion bound). -/
def publicarAg (ags : List Agente) : Nat → EstadoBus → Mensaje → EstadoBus
  | 0, st, m => { st with mensajes := st.mensajes ++ [m] }
  | fuel + 1, st, m =>
    List.foldl (fun acc a => procesar_mensaje_entrante (publicarAg ags fuel) acc a m)
      { st with mensajes := st.mensajes ++ [m] } ags

/-- `Agent.enviar_mensaje` with `esperar_respuesta=True`: construct and
publish the message, then poll `obtener_respuestas` for messages answering
the fresh id.  The bus is single-threaded and `publicar` dispatches fully
before the poll loop starts, so the poll's outcome is decided by the history
right after the publish returns; with a non-positive timeout the loop
condition `time.time() - start_time < timeout` is already false before the
first poll, so the bus is never consulted and the call returns `none`. -/
def enviar_mensaje_esperando (ags : List Agente) (fuel : Nat) (st : EstadoBus)
    (emisor destinatario tipo contenido : String) (id_respuesta : Option Nat)
    (metadata : List (String × Bool)) (timeout : Int) : EstadoBus × Option Mensaje :=
  let m := Mensaje.nuevo st.ctr emisor (some destinatario) tipo contenido none
    id_respuesta (some metadata)
  let st1 := publicarAg ags fuel { st with ctr := st.ctr + 1 } m
  if 0 < timeout then (st1, (SistemaMensajeria.obtener_respuestas st1.mensajes m.id).head?)
  else (st1, none)

/-! Helper lemmas about agent dispatch. -/

/-- An agent ignores a message when it is not the addressee or has no
handler registered for the message's kind. -/
def ignora (a : Agente) (m : Mensaje) : Prop :=
  m.destinatario ≠ some a.name ∨ a.callbacks.lookup m.tipo = none

/-- The persisted wire record (`Mensaje.to_dict`, one JSON object per log
line): every data-model field, the timestamp serialized as an ISO-8601
string that parses back to the same clock value (so it is modelled by the
value itself). -/
structure Registro where
  id : Nat
  timestamp : Nat
  emisor : String
  destinatario : Option String
  tipo : String
  contenido : String
  id_respuesta : Option Nat
  metadata : List (String × Bool)
deriving DecidableEq, Repr

/-- `Mensaje.to_dict`. -/
def Mensaje.to_dict (m : Mensaje) : Registro :=
  ⟨m.id, m.timestamp, m.emisor, m.destinatario, m.tipo, m.contenido,
    m.id_respuesta, m.metadata⟩

/-- `Mensaje.from_dict`: rebuild the message through the constructor (a
persisted record always carries id, timestamp and metadata, so the
constructor's generated-id fallback is not exercised), then overwrite the
timestamp with the parsed one, exactly as the code does after calling the
constructor. -/
def Mensaje.from_dict (r : Registro) : Mensaje :=
  { Mensaje.nuevo r.timestamp r.emisor r.destinatario r.tipo r.contenido (some r.id)
      r.id_respuesta (some r.metadata) with
    timestamp := r.timestamp }

/-- The inner loop body of `cargar_mensajes_desde_disco`: parse one
persisted record; if its id is already among the ids of the (evolving)
history, skip it, otherwise append it and count it as newly loaded. -/
def SistemaMensajeria.cargar_linea (acc : List Mensaje × Nat) (r : Registro) :
    List Mensaje × Nat :=
  let m := Mensaje.from_dict r
  if m.id ∈ acc.1.map Mensaje.id then acc
  else (acc.1 ++ [m], acc.2 + 1)

/-- `SistemaMensajeria.cargar_mensajes_desde_disco`: run every persisted
record of every partition through the dedup-append loop, starting from the
current history with count 0, then re-sort the whole history by timestamp;
return the new history together with the number of newly loaded
messages. -/
def SistemaMensajeria.cargar_mensajes_desde_disco (registros : List Registro)
    (mensajes : List Mensaje) : List Mensaje × Nat :=
  let p := registros.foldl SistemaMensajeria.cargar_linea (mensajes, 0)
  (p.1.mergeSort (fun a b => decide (a.timestamp ≤ b.timestamp)), p.2)

/-- `SistemaMensajeria.obtener_mensajes`: filter the history by any
combination of sender, recipient, kind, time range and reply correlation —
each filter applied only when its argument is truthy, as in Python (`None`
or an empty string skips the filter) — then sort newest-first (descending by
timestamp) and cap to `limite` when it is a positive number.  Note the
filters are conjunctive: passing both a sender and a recipient keeps only
messages matching both. -/
def SistemaMensajeria.obtener_mensajes (mensajes : List Mensaje)
    (emisor destinatario tipo : Option String) (desde hasta : Option Nat)
    (id_respuesta : Option Nat) (limite : Option Int) : List Mensaje :=
  let r := mensajes
  let r := match emisor with
    | some e => if e = "" then r else r.filter (fun m : Mensaje => m.emisor == e)
    | none => r
  let r := match destinatario with
    | some d => if d = "" then r else r.filter (fun m : Mensaje => m.destinatario == some d)
    | none => r
  let r := match tipo with
    | some t => if t = "" then r else r.filter (fun m : Mensaje => m.tipo == t)
    | none => r
  let r := match desde with
    | some d => r.filter (fun m : Mensaje => decide (d ≤ m.timestamp))
    | none => r
  let r := match hasta with
    | some hst => r.filter (fun m : Mensaje => decide (m.timestamp ≤ hst))
    | none => r
  let r := match id_respuesta with
    | some i => r.filter (fun m : Mensaje => m.id_respuesta == some i)
    | none => r
  let r := r.mergeSort (fun a b => decide (b.timestamp ≤ a.timestamp))
  match limite with
  | some l => if 0 < l then r.take l.toNat else r
  | none => r

/-- `Agent.obtener_historial_mensajes`: with `solo_propios=True` the agent's
own name is passed as both the sender filter and the recipient filter of
`obtener_mensajes`; `tipos` contributes the kind filter when it has exactly
one element and a post-filter when it has more than one; the result is
capped to `limite` and returned serialized. -/
def Agente.obtener_historial_mensajes (mensajes : List Mensaje) (name : String)
    (limite : Int) (tipos : List String) (solo_propios : Bool) : List Registro :=
  let filtro_emisor := if solo_propios then some name else none
  let filtro_destinatario := if solo_propios then some name else none
  let tipo := if tipos.length = 1 then tipos.head? else none
  let ms := SistemaMensajeria.obtener_mensajes mensajes filtro_emisor
    filtro_destinatario tipo none none none (some limite)
  let ms := if 1 < tipos.length then ms.filter (fun m : Mensaje => tipos.contains m.tipo)
    else ms
  ms.map Mensaje.to_dict

/-- The fan-out loop records one invocation per subscribed callback, in
subscription-list order, whatever each callback does (return or raise). -/
theorem notifica_eq_map (m : Mensaje) :
    ∀ cbs : List Suscriptor,
      SistemaMensajeria.notifica m cbs = cbs.map (fun cb => (cb.cid, m.id)) := by
  intro cbs
  induction cbs with
  | nil => rfl
  | cons cb resto ih =>
    simp only [SistemaMensajeria.notifica]
    cases cb.run m with
    | ok _ => simp [ih]
    | error _ => simp [ih]

/-- `subsDe` reads only the subscription table. -/
theorem subsDe_mk (ms : List Mensaje) (subs : List (String × List Suscriptor))
    (p : Bool) (tipo : String) :
    SistemaMensajeria.subsDe ⟨ms, subs, p⟩ tipo = (subs.lookup tipo).getD [] := rfl

/-- `publicar_varios` only appends the batch to the history, in order. -/
theorem publicar_varios_mensajes (fallaDisco : Bool) :
    ∀ (l : List Mensaje) (s : SistemaMensajeria),
      (SistemaMensajeria.publicar_varios s fallaDisco l).mensajes = s.mensajes ++ l := by
  intro l
  induction l with
  | nil => intro s; simp [SistemaMensajeria.publicar_varios]
  | cons m resto ih =>
    intro s
    simp [SistemaMensajeria.publicar_varios, SistemaMensajeria.publicar, ih]

/-- Claim C4: for every publish call, `publicar` returns the published
message's id, appends the message to the in-memory history, and invokes
every subscribed callback (those of the message's kind, then the wildcard
ones) — for every choice of callback behaviours, including callbacks that
raise, and whether or not the persistence write fails (`fallaDisco`): each
failure is caught, delivery continues, and `publicar` (a total function
whose result is given by this equation) propagates no exception to its
caller. -/
theorem c4_publicar_entrega_total (s : SistemaMensajeria) (fallaDisco : Bool)
    (m : Mensaje) :
    SistemaMensajeria.publicar s fallaDisco m =
      (⟨s.mensajes ++ [m], s.suscripciones, s.persistencia⟩,
       (SistemaMensajeria.subsDe s m.tipo ++ SistemaMensajeria.subsDe s "*").map
         (fun cb => (cb.cid, m.id)),
       m.id) := by
  cases s with
  | mk ms subs p =>
    simp [SistemaMensajeria.publicar, notifica_eq_map, SistemaMensajeria.subsDe]

/-- Claim C6: the callbacks invoked by a publish are exactly: first every
callback subscribed to the message's kind, then every callback subscribed to
the wildcard key, each group in registration (list) order; and, concretely,
after publishing three messages with kinds a, b, a, a subscriber registered
only for kind a has been invoked exactly twice, in publish order (its trace
pairs it with the ids of the first and third messages, in that order). -/
theorem c6_orden_de_entrega :
    (∀ (s : SistemaMensajeria) (fallaDisco : Bool) (m : Mensaje),
      (SistemaMensajeria.publicar s fallaDisco m).2.1 =
        (SistemaMensajeria.subsDe s m.tipo ++ SistemaMensajeria.subsDe s "*").map
          (fun cb => (cb.cid, m.id))) ∧
    (let cbA : Suscriptor := ⟨7, fun _ => Except.ok ()⟩
     let s0 : SistemaMensajeria := SistemaMensajeria.suscribir ⟨[], [], false⟩ "a" cbA
     let m1 : Mensaje := ⟨1, 1, "X", none, "a", "uno", none, []⟩
     let m2 : Mensaje := ⟨2, 2, "X", none, "b", "dos", none, []⟩
     let m3 : Mensaje := ⟨3, 3, "X", none, "a", "tres", none, []⟩
     let p1 := SistemaMensajeria.publicar s0 false m1
     let p2 := SistemaMensajeria.publicar p1.1 false m2
     let p3 := SistemaMensajeria.publicar p2.1 false m3
     p1.2.1 ++ p2.2.1 ++ p3.2.1 = [(7, 1), (7, 3)]) := by
  constructor
  · intro s fallaDisco m
    cases s with
    | mk ms subs p =>
      simp [SistemaMensajeria.publicar, notifica_eq_map, SistemaMensajeria.subsDe]
  · rfl

/-- Claim C2 as stated is false: `publicar` never assigns a timestamp (the
`Mensaje` constructor does, at creation time), so a bus that accepts a
message carrying timestamp 5 and then one carrying timestamp 3 holds a
history whose timestamps are not monotonic non-decreasing. -/
theorem c2_contraejemplo :
    ¬ List.Pairwise (fun x y => x.timestamp ≤ y.timestamp)
        ((SistemaMensajeria.publicar
            (SistemaMensajeria.publicar ⟨[], [], false⟩ false
              ⟨1, 5, "A", none, "a", "uno", none, []⟩).1 false
            ⟨2, 3, "A", none, "a", "dos", none, []⟩).1.mensajes) := by
  decide

/-- Claim C2, amended: `publicar` appends the message to the history
unchanged — in particular it keeps the timestamp the constructor assigned at
creation time and never assigns one itself — and therefore the history's
timestamps are monotonic non-decreasing in the order the bus accepted the
messages provided each published message carries a timestamp at least as
large as every timestamp already in the history (as when each message is
constructed immediately before being published, the clock being
monotone). -/
theorem c2_amended_timestamps (s : SistemaMensajeria) (fallaDisco : Bool)
    (m : Mensaje)
    (hmono : List.Pairwise (fun x y => x.timestamp ≤ y.timestamp) s.mensajes)
    (hle : ∀ x ∈ s.mensajes, x.timestamp ≤ m.timestamp) :
    (SistemaMensajeria.publicar s fallaDisco m).1.mensajes = s.mensajes ++ [m] ∧
    List.Pairwise (fun x y => x.timestamp ≤ y.timestamp)
      (SistemaMensajeria.publicar s fallaDisco m).1.mensajes := by
  refine ⟨rfl, ?_⟩
  have : (SistemaMensajeria.publicar s fallaDisco m).1.mensajes = s.mensajes ++ [m] := rfl
  rw [this, List.pairwise_append]
  exact ⟨hmono, List.pairwise_singleton _ _, fun a ha b hb => by
    simp only [List.mem_singleton] at hb
    subst hb
    exact hle a ha⟩

/-- Witness for the amended C2 at a concrete input: a monotone two-message
history stays monotone after publishing a message with a larger timestamp,
and the publish appends it unchanged. -/
theorem c2_amended_timestamps_witness :
    (SistemaMensajeria.publicar
        ⟨[⟨1, 1, "A", none, "a", "uno", none, []⟩,
          ⟨2, 4, "A", none, "a", "dos", none, []⟩], [], false⟩ false
        ⟨3, 9, "A", none, "a", "tres", none, []⟩).1.mensajes =
      [⟨1, 1, "A", none, "a", "uno", none, []⟩,
       ⟨2, 4, "A", none, "a", "dos", none, []⟩] ++
        [⟨3, 9, "A", none, "a", "tres", none, []⟩] ∧
    List.Pairwise (fun x y => x.timestamp ≤ y.timestamp)
      (SistemaMensajeria.publicar
        ⟨[⟨1, 1, "A", none, "a", "uno", none, []⟩,
          ⟨2, 4, "A", none, "a", "dos", none, []⟩], [], false⟩ false
        ⟨3, 9, "A", none, "a", "tres", none, []⟩).1.mensajes :=
  c2_amended_timestamps _ false _ (by decide) (by decide)

/-- Claim C8: for every message published on a bus whose history does not
already contain the message's id (the spec's id-uniqueness invariant,
guaranteed by uuid generation), `publicar` returns that id, and a subsequent
`obtener_mensaje` with the returned id returns exactly that message, for any
sequence of intervening publishes afterwards. -/
theorem c8_publicar_obtener_roundtrip (s : SistemaMensajeria)
    (f g : Bool) (m : Mensaje) (later : List Mensaje)
    (h : ∀ x ∈ s.mensajes, x.id ≠ m.id) :
    (SistemaMensajeria.publicar s f m).2.2 = m.id ∧
    SistemaMensajeria.obtener_mensaje
      (SistemaMensajeria.publicar_varios (SistemaMensajeria.publicar s f m).1 g later)
      m.id = some m := by
  refine ⟨rfl, ?_⟩
  unfold SistemaMensajeria.obtener_mensaje
  rw [publicar_varios_mensajes]
  have hfst : (SistemaMensajeria.publicar s f m).1.mensajes = s.mensajes ++ [m] := rfl
  rw [hfst, List.append_assoc, List.find?_append]
  have hnone : List.find? (fun x => x.id == m.id) s.mensajes = none := by
    rw [List.find?_eq_none]
    intro x hx
    simp only [beq_iff_eq]
    exact h x hx
  rw [hnone]
  simp [List.find?_append, List.find?]

/-- Witness for C8: a concrete bus with one prior message, a fresh publish,
and one intervening publish afterwards. -/
theorem c8_publicar_obtener_roundtrip_witness :
    (SistemaMensajeria.publicar
        ⟨[⟨1, 1, "A", none, "a", "uno", none, []⟩], [], false⟩ false
        ⟨2, 2, "B", none, "b", "dos", none, []⟩).2.2 = 2 ∧
    SistemaMensajeria.obtener_mensaje
      (SistemaMensajeria.publicar_varios
        (SistemaMensajeria.publicar
          ⟨[⟨1, 1, "A", none, "a", "uno", none, []⟩], [], false⟩ false
          ⟨2, 2, "B", none, "b", "dos", none, []⟩).1 false
        [⟨3, 3, "C", none, "c", "tres", none, []⟩]) 2 =
      some ⟨2, 2, "B", none, "b", "dos", none, []⟩ :=
  c8_publicar_obtener_roundtrip _ false false _ _ (by decide)

/-- A dispatcher invoked on a message its agent ignores leaves the state
unchanged. -/
theorem procesar_de_ignora {a : Agente} {m : Mensaje} (h : ignora a m)
    (pub : EstadoBus → Mensaje → EstadoBus) (st : EstadoBus) :
    procesar_mensaje_entrante pub st a m = st := by
  unfold procesar_mensaje_entrante
  rcases h with h | h
  · rw [if_pos h]
  · by_cases hd : m.destinatario ≠ some a.name
    · rw [if_pos hd]
    · rw [if_neg hd, h]

/-- Fan-out over agents that all ignore the message leaves the state
unchanged. -/
theorem foldl_procesar_ignora {m : Mensaje} (pub : EstadoBus → Mensaje → EstadoBus) :
    ∀ (ags : List Agente), (∀ a ∈ ags, ignora a m) → ∀ st : EstadoBus,
      List.foldl (fun acc a => procesar_mensaje_entrante pub acc a m) st ags = st := by
  intro ags
  induction ags with
  | nil => intro _ st; rfl
  | cons a resto ih =>
    intro h st
    simp only [List.foldl_cons]
    rw [procesar_de_ignora (h a (List.mem_cons_self a resto)) pub st]
    exact ih (fun x hx => h x (List.mem_cons_of_mem a hx)) st

/-- Publishing a message every agent ignores only appends it. -/
theorem publicarAg_ignorado {ags : List Agente} {m : Mensaje}
    (h : ∀ a ∈ ags, ignora a m) (fuel : Nat) (st : EstadoBus) :
    publicarAg ags fuel st m = { st with mensajes := st.mensajes ++ [m] } := by
  cases fuel with
  | zero => rfl
  | succ f =>
    unfold publicarAg
    exact foldl_procesar_ignora _ ags h _

/-- Claim C10: an endpoint's dispatcher, given a message whose recipient is
not exactly the endpoint's name — broadcasts (no recipient) included —
returns with the bus state unchanged, publishing nothing and invoking no
handler, whatever handlers are registered in its callback table. -/
theorem c10_dispatcher_ignora_otros (pub : EstadoBus → Mensaje → EstadoBus)
    (st : EstadoBus) (nombre : String)
    (cbs : List (String × (Mensaje → Except String String))) (m : Mensaje)
    (h : m.destinatario ≠ some nombre) :
    procesar_mensaje_entrante pub st ⟨nombre, cbs⟩ m = st :=
  procesar_de_ignora (Or.inl h) pub st

/-- Witness for C10: a broadcast message (no recipient) reaching an agent
that does have a handler registered for the message's kind leaves the bus
state unchanged. -/
theorem c10_dispatcher_ignora_otros_witness :
    procesar_mensaje_entrante (publicarAg [] 1)
      ⟨[⟨1, 1, "A", none, "consulta", "hola", none, []⟩], 5⟩
      ⟨"B", [("consulta", fun _ => Except.ok "respuesta")]⟩
      ⟨1, 1, "A", none, "consulta", "hola", none, []⟩ =
      ⟨[⟨1, 1, "A", none, "consulta", "hola", none, []⟩], 5⟩ :=
  c10_dispatcher_ignora_otros (publicarAg [] 1) _ "B" _ _ (by decide)

/-- Claim C9: `enviar_mensaje` with `esperar_respuesta=True` and a timeout
less than or equal to zero returns `none` without ever consulting the bus
for replies — the poll loop's condition fails before the first iteration —
even when a message answering the fresh id is already in the history. -/
theorem c9_timeout_no_positivo (ags : List Agente) (fuel : Nat) (st : EstadoBus)
    (emisor destinatario tipo contenido : String) (id_respuesta : Option Nat)
    (metadata : List (String × Bool)) (timeout : Int) (h : timeout ≤ 0) :
    (enviar_mensaje_esperando ags fuel st emisor destinatario tipo contenido
      id_respuesta metadata timeout).2 = none := by
  unfold enviar_mensaje_esperando
  rw [if_neg (not_lt.mpr h)]

/-- Witness for C9 at a concrete input: the history already holds a message
whose `id_respuesta` equals the id about to be generated (counter value 9),
yet the call with timeout 0 returns `none`; the second conjunct checks that
a reply really was present to be found. -/
theorem c9_timeout_no_positivo_witness :
    (enviar_mensaje_esperando [] 1
        ⟨[⟨3, 3, "B", some "A", "respuesta_consulta", "r", some 9, []⟩], 9⟩
        "A" "B" "consulta" "hola" none [] 0).2 = none ∧
    SistemaMensajeria.obtener_respuestas
      (enviar_mensaje_esperando [] 1
        ⟨[⟨3, 3, "B", some "A", "respuesta_consulta", "r", some 9, []⟩], 9⟩
        "A" "B" "consulta" "hola" none [] 0).1.mensajes 9 ≠ [] :=
  ⟨c9_timeout_no_positivo [] 1 _ "A" "B" "consulta" "hola" none [] 0 (by decide),
   by decide⟩

/-- A dispatcher whose agent is the addressee and whose handler returns a
non-empty result publishes the automatic reply. -/
theorem procesar_responde (pub : EstadoBus → Mensaje → EstadoBus) (st : EstadoBus)
    (b : Agente) (m : Mensaje) (handler : Mensaje → Except String String) (r : String)
    (hd : m.destinatario = some b.name)
    (hlk : b.callbacks.lookup m.tipo = some handler)
    (hr : handler m = Except.ok r) (hr0 : r ≠ "") :
    procesar_mensaje_entrante pub st b m =
      enviarCon pub st b.name m.emisor ("respuesta_" ++ m.tipo) r (some m.id)
        [("automatico", true)] := by
  unfold procesar_mensaje_entrante
  rw [if_neg (by rw [hd]; simp), hlk]
  simp only [hr]
  rw [if_neg hr0]

/-- A dispatcher whose agent is the addressee and whose handler raises
publishes the error notice. -/
theorem procesar_notifica_error (pub : EstadoBus → Mensaje → EstadoBus) (st : EstadoBus)
    (b : Agente) (m : Mensaje) (handler : Mensaje → Except String String) (e : String)
    (hd : m.destinatario = some b.name)
    (hlk : b.callbacks.lookup m.tipo = some handler)
    (he : handler m = Except.error e) :
    procesar_mensaje_entrante pub st b m =
      enviarCon pub st b.name m.emisor "error"
        ("Error procesando mensaje " ++ m.tipo ++ ": " ++ e) (some m.id)
        [("error", true)] := by
  unfold procesar_mensaje_entrante
  rw [if_neg (by rw [hd]; simp), hlk]
  simp only [he]

/-- Fan-out of a message addressed to exactly one of the registered agents,
whose handler returns a non-empty result, when no agent named after the
message's sender handles the reply kind: the history gains the message and
then the automatic reply, and the counter advances past the reply's fresh
id. -/
theorem publicarAg_responde
    (l₁ l₂ : List Agente) (b : Agente) (f : Nat) (st : EstadoBus) (m : Mensaje)
    (handler : Mensaje → Except String String) (r : String)
    (hd : m.destinatario = some b.name)
    (hl₁ : ∀ a ∈ l₁, a.name ≠ b.name)
    (hl₂ : ∀ a ∈ l₂, a.name ≠ b.name)
    (hlk : b.callbacks.lookup m.tipo = some handler)
    (hr : handler m = Except.ok r) (hr0 : r ≠ "")
    (hnc : ∀ a ∈ l₁ ++ b :: l₂, a.name = m.emisor →
      a.callbacks.lookup ("respuesta_" ++ m.tipo) = none) :
    publicarAg (l₁ ++ b :: l₂) (f + 1) st m =
      { mensajes := (st.mensajes ++ [m]) ++
          [⟨st.ctr, st.ctr, b.name, some m.emisor, "respuesta_" ++ m.tipo, r,
            some m.id, [("automatico", true)]⟩],
        ctr := st.ctr + 1 } := by
  have hmign₁ : ∀ a ∈ l₁, ignora a m := fun a ha =>
    Or.inl (by rw [hd]; intro hc; exact hl₁ a ha (Option.some.inj hc).symm)
  have hmign₂ : ∀ a ∈ l₂, ignora a m := fun a ha =>
    Or.inl (by rw [hd]; intro hc; exact hl₂ a ha (Option.some.inj hc).symm)
  have hreply : ∀ a ∈ l₁ ++ b :: l₂, ignora a
      ⟨st.ctr, st.ctr, b.name, some m.emisor, "respuesta_" ++ m.tipo, r,
        some m.id, [("automatico", true)]⟩ := by
    intro a ha
    by_cases hq : a.name = m.emisor
    · exact Or.inr (hnc a ha hq)
    · exact Or.inl (fun hc => hq (Option.some.inj hc).symm)
  unfold publicarAg
  rw [List.foldl_append,
    foldl_procesar_ignora (publicarAg (l₁ ++ b :: l₂) f) l₁ hmign₁,
    List.foldl_cons,
    procesar_responde (publicarAg (l₁ ++ b :: l₂) f) _ b m handler r hd hlk hr hr0]
  simp only [enviarCon, Mensaje.nuevo, Option.getD_some, Option.getD_none]
  rw [publicarAg_ignorado hreply f]
  exact foldl_procesar_ignora (publicarAg (l₁ ++ b :: l₂) f) l₂ hmign₂ _

/-- Claim C1: if endpoint A (named `emisor`) sends to endpoint B (named
`dest`, registered on the shared bus) with `esperar_respuesta=True` and a
positive timeout, and B's registered handler for the message's kind returns
a non-empty result (so the reply is published synchronously, before the
timeout can elapse), then A's send returns a `Mensaje` whose `id_respuesta`
equals the id of A's original message, whose `emisor` equals B's name
(`dest`), whose `destinatario` is A's name, whose `tipo` is the reply prefix
(`respuesta_` in the source, the spec's "reply_") prepended to the original
kind, and whose metadata carries the automatic-reply flag.  Side conditions:
agent names are distinct (one endpoint per name), no endpoint named `emisor`
handles the reply kind (so the exchange stops at one reply), and no message
already in the history answers the fresh id about to be generated (the
uuid-freshness invariant). -/
theorem c1_enviar_esperando_respuesta_automatica
    (ags : List Agente) (fuel : Nat) (st : EstadoBus)
    (emisor dest tipo contenido : String) (md : List (String × Bool)) (timeout : Int)
    (b : Agente) (handler : Mensaje → Except String String) (r : String)
    (hb : b ∈ ags) (hbn : b.name = dest)
    (hnd : (ags.map Agente.name).Nodup)
    (hlk : b.callbacks.lookup tipo = some handler)
    (hr : handler (Mensaje.nuevo st.ctr emisor (some dest) tipo contenido none none
      (some md)) = Except.ok r)
    (hr0 : r ≠ "")
    (hnc : ∀ a ∈ ags, a.name = emisor →
      a.callbacks.lookup ("respuesta_" ++ tipo) = none)
    (hfresh : ∀ x ∈ st.mensajes, x.id_respuesta ≠ some st.ctr)
    (ht : 0 < timeout) (hf : 1 ≤ fuel) :
    ∃ resp,
      (enviar_mensaje_esperando ags fuel st emisor dest tipo contenido none md
        timeout).2 = some resp ∧
      resp.id_respuesta = some (Mensaje.nuevo st.ctr emisor (some dest) tipo contenido
        none none (some md)).id ∧
      resp.emisor = dest ∧
      resp.destinatario = some emisor ∧
      resp.tipo = "respuesta_" ++ tipo ∧
      resp.metadata = [("automatico", true)] := by
  subst hbn
  cases fuel with
  | zero => omega
  | succ f =>
    obtain ⟨l₁, l₂, rfl⟩ := List.append_of_mem hb
    rw [List.map_append, List.map_cons] at hnd
    obtain ⟨hn1, hn2, hdisj⟩ := List.nodup_append.mp hnd
    have hl₁ : ∀ a ∈ l₁, a.name ≠ b.name := fun a ha hq =>
      hdisj (List.mem_map_of_mem _ ha) (by rw [hq]; exact List.mem_cons_self _ _)
    have hl₂ : ∀ a ∈ l₂, a.name ≠ b.name := fun a ha hq =>
      (List.nodup_cons.mp hn2).1 (by rw [← hq]; exact List.mem_map_of_mem _ ha)
    refine ⟨⟨st.ctr + 1, st.ctr + 1, b.name, some emisor, "respuesta_" ++ tipo, r,
      some st.ctr, [("automatico", true)]⟩, ?_, rfl, rfl, rfl, rfl, rfl⟩
    simp only [enviar_mensaje_esperando, Mensaje.nuevo, Option.getD_some, Option.getD_none]
    rw [publicarAg_responde l₁ l₂ b f ⟨st.mensajes, st.ctr + 1⟩
        ⟨st.ctr, st.ctr, emisor, some b.name, tipo, contenido, none, md⟩
        handler r rfl hl₁ hl₂ hlk hr hr0 hnc,
      if_pos ht]
    unfold SistemaMensajeria.obtener_respuestas
    rw [List.filter_append, List.filter_append]
    have h1 : st.mensajes.filter
        (fun x => x.id_respuesta == some st.ctr) = [] :=
      List.filter_eq_nil_iff.mpr (fun x hx => by simpa using hfresh x hx)
    rw [h1]
    simp [List.filter]

/-- Witness for C1: endpoints "A" and "B" on a fresh bus; "B" handles kind
`consulta` returning a non-empty string; "A" sends with a positive timeout
and receives the automatic reply. -/
theorem c1_enviar_esperando_respuesta_automatica_witness :
    ∃ resp,
      (enviar_mensaje_esperando
        [⟨"A", []⟩, ⟨"B", [("consulta", fun _ => Except.ok "hola desde B")]⟩]
        2 ⟨[], 0⟩ "A" "B" "consulta" "pregunta" none [] 5).2 = some resp ∧
      resp.id_respuesta = some (Mensaje.nuevo 0 "A" (some "B") "consulta" "pregunta"
        none none (some [])).id ∧
      resp.emisor = "B" ∧
      resp.destinatario = some "A" ∧
      resp.tipo = "respuesta_" ++ "consulta" ∧
      resp.metadata = [("automatico", true)] :=
  c1_enviar_esperando_respuesta_automatica
    [⟨"A", []⟩, ⟨"B", [("consulta", fun _ => Except.ok "hola desde B")]⟩]
    2 ⟨[], 0⟩ "A" "B" "consulta" "pregunta" [] 5
    ⟨"B", [("consulta", fun _ => Except.ok "hola desde B")]⟩
    (fun _ => Except.ok "hola desde B") "hola desde B"
    (List.mem_cons_of_mem _ (List.mem_cons_self _ _)) rfl
    (by simp) rfl rfl (by decide)
    (by
      intro a ha hn
      rcases List.mem_cons.mp ha with rfl | ha2
      · rfl
      · rcases List.mem_cons.mp ha2 with rfl | ha3
        · exact absurd hn (by decide)
        · exact absurd ha3 (List.not_mem_nil a))
    (fun x hx => absurd hx (List.not_mem_nil x))
    (by decide) (by decide)

/-- Claim C5: a message dispatched to an endpoint whose registered handler
for its kind raises is answered by exactly one error-kind message addressed
back to the original sender, carrying the error text and `id_respuesta` set
to the original message's id; the exception is caught inside the dispatcher
(the fan-out continues), so a second subscriber of the same message — here a
second endpoint with the same name, whose handler succeeds — is still
invoked and still publishes its automatic reply.  Side condition: the sender
is not one of the two endpoints, so the error notice and the reply trigger
no further handler chain. -/
theorem c5_handler_error_una_notificacion
    (st : EstadoBus) (m : Mensaje) (fuel : Nat)
    (b1 b2 : Agente) (g1 g2 : Mensaje → Except String String) (e r : String)
    (hd : m.destinatario = some b1.name)
    (hnm : b2.name = b1.name)
    (hem : m.emisor ≠ b1.name)
    (hlk1 : b1.callbacks.lookup m.tipo = some g1)
    (he : g1 m = Except.error e)
    (hlk2 : b2.callbacks.lookup m.tipo = some g2)
    (hok : g2 m = Except.ok r) (hr0 : r ≠ "") :
    publicarAg [b1, b2] (fuel + 1) st m =
      { mensajes := st.mensajes ++
          [m,
           ⟨st.ctr, st.ctr, b1.name, some m.emisor, "error",
             "Error procesando mensaje " ++ m.tipo ++ ": " ++ e, some m.id,
             [("error", true)]⟩,
           ⟨st.ctr + 1, st.ctr + 1, b2.name, some m.emisor, "respuesta_" ++ m.tipo,
             r, some m.id, [("automatico", true)]⟩],
        ctr := st.ctr + 2 } ∧
    List.filter (fun x : Mensaje => x.tipo == "error")
      [⟨st.ctr, st.ctr, b1.name, some m.emisor, "error",
         "Error procesando mensaje " ++ m.tipo ++ ": " ++ e, some m.id,
         [("error", true)]⟩,
       ⟨st.ctr + 1, st.ctr + 1, b2.name, some m.emisor, "respuesta_" ++ m.tipo,
         r, some m.id, [("automatico", true)]⟩] =
      [⟨st.ctr, st.ctr, b1.name, some m.emisor, "error",
         "Error procesando mensaje " ++ m.tipo ++ ": " ++ e, some m.id,
         [("error", true)]⟩] := by
  have hrep_ne : "respuesta_" ++ m.tipo ≠ "error" := by
    intro hc
    have hlen := congrArg String.length hc
    have h10 : ("respuesta_" : String).length = 10 := rfl
    have h5 : ("error" : String).length = 5 := rfl
    rw [String.length_append, h10, h5] at hlen
    omega
  constructor
  · have herr : ∀ a ∈ [b1, b2], ignora a
        ⟨st.ctr, st.ctr, b1.name, some m.emisor, "error",
          "Error procesando mensaje " ++ m.tipo ++ ": " ++ e, some m.id,
          [("error", true)]⟩ := by
      intro a ha
      rcases List.mem_cons.mp ha with rfl | ha2
      · exact Or.inl (fun hc => hem (Option.some.inj hc))
      · rcases List.mem_cons.mp ha2 with rfl | ha3
        · exact Or.inl (fun hc => hem (by rw [← hnm]; exact Option.some.inj hc))
        · exact absurd ha3 (List.not_mem_nil a)
    have hrep : ∀ a ∈ [b1, b2], ignora a
        ⟨st.ctr + 1, st.ctr + 1, b2.name, some m.emisor, "respuesta_" ++ m.tipo,
          r, some m.id, [("automatico", true)]⟩ := by
      intro a ha
      rcases List.mem_cons.mp ha with rfl | ha2
      · exact Or.inl (fun hc => hem (Option.some.inj hc))
      · rcases List.mem_cons.mp ha2 with rfl | ha3
        · exact Or.inl (fun hc => hem (by rw [← hnm]; exact Option.some.inj hc))
        · exact absurd ha3 (List.not_mem_nil a)
    unfold publicarAg
    rw [List.foldl_cons,
      procesar_notifica_error (publicarAg [b1, b2] fuel) _ b1 m g1 e hd hlk1 he]
    simp only [enviarCon, Mensaje.nuevo, Option.getD_some, Option.getD_none]
    rw [publicarAg_ignorado herr fuel]
    rw [List.foldl_cons,
      procesar_responde (publicarAg [b1, b2] fuel) _ b2 m g2 r
        (by rw [hnm]; exact hd) hlk2 hok hr0]
    simp only [enviarCon, Mensaje.nuevo, Option.getD_some, Option.getD_none]
    rw [publicarAg_ignorado hrep fuel]
    simp
  · have hb : ("respuesta_" ++ m.tipo == "error") = false :=
      beq_eq_false_iff_ne.mpr hrep_ne
    simp [List.filter, hb]

/-- Witness for C5: endpoints named "B" (a failing handler and a succeeding
one) and a message from "A"; the bus gains exactly one error notice followed
by the surviving subscriber's automatic reply. -/
theorem c5_handler_error_una_notificacion_witness :
    publicarAg
        [⟨"B", [("consulta", fun _ => Except.error "fallo interno")]⟩,
         ⟨"B", [("consulta", fun _ => Except.ok "todo bien")]⟩] 2
        ⟨[], 0⟩ ⟨100, 0, "A", some "B", "consulta", "pregunta", none, []⟩ =
      { mensajes := [] ++
          [⟨100, 0, "A", some "B", "consulta", "pregunta", none, []⟩,
           ⟨0, 0, "B", some "A", "error",
             "Error procesando mensaje " ++ "consulta" ++ ": " ++ "fallo interno",
             some 100, [("error", true)]⟩,
           ⟨0 + 1, 0 + 1, "B", some "A", "respuesta_" ++ "consulta", "todo bien",
             some 100, [("automatico", true)]⟩],
        ctr := 0 + 2 } ∧
    List.filter (fun x : Mensaje => x.tipo == "error")
      [⟨0, 0, "B", some "A", "error",
         "Error procesando mensaje " ++ "consulta" ++ ": " ++ "fallo interno",
         some 100, [("error", true)]⟩,
       ⟨0 + 1, 0 + 1, "B", some "A", "respuesta_" ++ "consulta", "todo bien",
         some 100, [("automatico", true)]⟩] =
      [⟨0, 0, "B", some "A", "error",
         "Error procesando mensaje " ++ "consulta" ++ ": " ++ "fallo interno",
         some 100, [("error", true)]⟩] :=
  c5_handler_error_una_notificacion ⟨[], 0⟩
    ⟨100, 0, "A", some "B", "consulta", "pregunta", none, []⟩ 1
    ⟨"B", [("consulta", fun _ => Except.error "fallo interno")]⟩
    ⟨"B", [("consulta", fun _ => Except.ok "todo bien")]⟩
    (fun _ => Except.error "fallo interno") (fun _ => Except.ok "todo bien")
    "fallo interno" "todo bien"
    rfl rfl (by decide) rfl rfl rfl rfl (by decide)

/-- The dedup-append loop over records that are all new (their ids are
pairwise distinct and none is already in the history) appends every parsed
message, in order, and counts them all. -/
theorem cargar_fold_nuevos :
    ∀ (rs : List Registro) (st : List Mensaje) (c : Nat),
      (rs.map (fun r => (Mensaje.from_dict r).id)).Nodup →
      (∀ r ∈ rs, ∀ x ∈ st, x.id ≠ (Mensaje.from_dict r).id) →
      rs.foldl SistemaMensajeria.cargar_linea (st, c) =
        (st ++ rs.map Mensaje.from_dict, c + rs.length) := by
  intro rs
  induction rs with
  | nil => intro st c _ _; simp
  | cons r resto ih =>
    intro st c hnd hnew
    rw [List.foldl_cons]
    have hnotin : (Mensaje.from_dict r).id ∉ st.map Mensaje.id := by
      intro hc
      obtain ⟨x, hx, hxid⟩ := List.mem_map.mp hc
      exact hnew r (List.mem_cons_self r resto) x hx hxid
    have hstep : SistemaMensajeria.cargar_linea (st, c) r =
        (st ++ [Mensaje.from_dict r], c + 1) := by
      simp only [SistemaMensajeria.cargar_linea]
      rw [if_neg hnotin]
    rw [hstep]
    rw [List.map_cons] at hnd
    obtain ⟨hhd, htl⟩ := List.nodup_cons.mp hnd
    have hnew' : ∀ r' ∈ resto, ∀ x ∈ st ++ [Mensaje.from_dict r],
        x.id ≠ (Mensaje.from_dict r').id := by
      intro r' hr' x hx
      rcases List.mem_append.mp hx with hx1 | hx2
      · exact hnew r' (List.mem_cons_of_mem r hr') x hx1
      · rw [List.mem_singleton.mp hx2]
        intro hc
        exact hhd (by rw [hc]; exact List.mem_map_of_mem _ hr')
    rw [ih (st ++ [Mensaje.from_dict r]) (c + 1) htl hnew']
    simp [List.append_assoc]
    omega

/-- The dedup-append loop over records whose ids are all already in the
history changes nothing and counts nothing. -/
theorem cargar_fold_presentes :
    ∀ (rs : List Registro) (st : List Mensaje) (c : Nat),
      (∀ r ∈ rs, (Mensaje.from_dict r).id ∈ st.map Mensaje.id) →
      rs.foldl SistemaMensajeria.cargar_linea (st, c) = (st, c) := by
  intro rs
  induction rs with
  | nil => intro st c _; rfl
  | cons r resto ih =>
    intro st c hall
    rw [List.foldl_cons]
    have hstep : SistemaMensajeria.cargar_linea (st, c) r = (st, c) := by
      simp only [SistemaMensajeria.cargar_linea]
      rw [if_pos (hall r (List.mem_cons_self r resto))]
    rw [hstep]
    exact ih st c (fun r' hr' => hall r' (List.mem_cons_of_mem r hr'))

/-- The count accumulated by the dedup-append loop equals the number of
messages the loop added to the history. -/
theorem cargar_fold_cuenta :
    ∀ (rs : List Registro) (st : List Mensaje) (c : Nat),
      (rs.foldl SistemaMensajeria.cargar_linea (st, c)).1.length + c =
        (rs.foldl SistemaMensajeria.cargar_linea (st, c)).2 + st.length := by
  intro rs
  induction rs with
  | nil => intro st c; simp [Nat.add_comm]
  | cons r resto ih =>
    intro st c
    rw [List.foldl_cons]
    simp only [SistemaMensajeria.cargar_linea]
    by_cases h : (Mensaje.from_dict r).id ∈ st.map Mensaje.id
    · rw [if_pos h]
      exact ih st c
    · rw [if_neg h]
      have := ih (st ++ [Mensaje.from_dict r]) (c + 1)
      simp only [List.length_append, List.length_singleton] at this
      omega

/-- Claim C3: a message serialized to the log and reloaded through
`cargar_mensajes_desde_disco` comes back field-for-field equal to the
original (first conjunct, and every original message is found in the loaded
history); loading a log of messages with pairwise distinct ids into an empty
history returns exactly their number; loading the same log a second time
admits zero new messages, leaves no duplicate ids in the history, and only
re-sorts it (a permutation); and in general the count returned is exactly
the number of messages newly added to the history. -/
theorem c3_cargar_roundtrip_idempotente (msgs : List Mensaje)
    (hids : (msgs.map Mensaje.id).Nodup) :
    (∀ m : Mensaje, Mensaje.from_dict (Mensaje.to_dict m) = m) ∧
    (SistemaMensajeria.cargar_mensajes_desde_disco (msgs.map Mensaje.to_dict)
      []).2 = msgs.length ∧
    (∀ m ∈ msgs, m ∈ (SistemaMensajeria.cargar_mensajes_desde_disco
      (msgs.map Mensaje.to_dict) []).1) ∧
    (SistemaMensajeria.cargar_mensajes_desde_disco (msgs.map Mensaje.to_dict)
      (SistemaMensajeria.cargar_mensajes_desde_disco (msgs.map Mensaje.to_dict)
        []).1).2 = 0 ∧
    ((SistemaMensajeria.cargar_mensajes_desde_disco (msgs.map Mensaje.to_dict)
      (SistemaMensajeria.cargar_mensajes_desde_disco (msgs.map Mensaje.to_dict)
        []).1).1.map Mensaje.id).Nodup ∧
    (SistemaMensajeria.cargar_mensajes_desde_disco (msgs.map Mensaje.to_dict)
      (SistemaMensajeria.cargar_mensajes_desde_disco (msgs.map Mensaje.to_dict)
        []).1).1.Perm
      (SistemaMensajeria.cargar_mensajes_desde_disco (msgs.map Mensaje.to_dict)
        []).1 ∧
    (∀ (rs : List Registro) (st : List Mensaje),
      (SistemaMensajeria.cargar_mensajes_desde_disco rs st).1.length =
        (SistemaMensajeria.cargar_mensajes_desde_disco rs st).2 + st.length) := by
  have hrt : ∀ m : Mensaje, Mensaje.from_dict (Mensaje.to_dict m) = m := fun m => rfl
  have hcomp : Mensaje.from_dict ∘ Mensaje.to_dict = id := funext hrt
  have hmapid : (msgs.map Mensaje.to_dict).map Mensaje.from_dict = msgs := by
    rw [List.map_map, hcomp, List.map_id]
  have hnodup' : ((msgs.map Mensaje.to_dict).map
      (fun r => (Mensaje.from_dict r).id)).Nodup := by
    rw [List.map_map]
    have : ((fun r => (Mensaje.from_dict r).id) ∘ Mensaje.to_dict) = Mensaje.id :=
      funext fun m => rfl
    rw [this]
    exact hids
  have hfold1 := cargar_fold_nuevos (msgs.map Mensaje.to_dict) [] 0 hnodup'
    (by intro r _ x hx; exact absurd hx (List.not_mem_nil x))
  rw [hmapid, List.length_map, List.nil_append, Nat.zero_add] at hfold1
  have hc1 : SistemaMensajeria.cargar_mensajes_desde_disco (msgs.map Mensaje.to_dict)
      [] = (msgs.mergeSort (fun a b => decide (a.timestamp ≤ b.timestamp)),
        msgs.length) := by
    simp only [SistemaMensajeria.cargar_mensajes_desde_disco]
    rw [hfold1]
  have hall : ∀ r ∈ msgs.map Mensaje.to_dict, (Mensaje.from_dict r).id ∈
      (msgs.mergeSort (fun a b => decide (a.timestamp ≤ b.timestamp))).map
        Mensaje.id := by
    intro r hr
    obtain ⟨m₀, hm₀, rfl⟩ := List.mem_map.mp hr
    rw [hrt m₀]
    exact List.mem_map_of_mem _ (List.mem_mergeSort.mpr hm₀)
  have hfold2 := cargar_fold_presentes (msgs.map Mensaje.to_dict)
    (msgs.mergeSort (fun a b => decide (a.timestamp ≤ b.timestamp))) 0 hall
  have hc2 : SistemaMensajeria.cargar_mensajes_desde_disco (msgs.map Mensaje.to_dict)
      (msgs.mergeSort (fun a b => decide (a.timestamp ≤ b.timestamp))) =
      ((msgs.mergeSort (fun a b => decide (a.timestamp ≤ b.timestamp))).mergeSort
        (fun a b => decide (a.timestamp ≤ b.timestamp)), 0) := by
    simp only [SistemaMensajeria.cargar_mensajes_desde_disco]
    rw [hfold2]
  have hperm1 : (msgs.mergeSort
      (fun a b => decide (a.timestamp ≤ b.timestamp))).Perm msgs :=
    List.mergeSort_perm msgs _
  have hperm2 : ((msgs.mergeSort (fun a b => decide (a.timestamp ≤ b.timestamp))).mergeSort
      (fun a b => decide (a.timestamp ≤ b.timestamp))).Perm
      (msgs.mergeSort (fun a b => decide (a.timestamp ≤ b.timestamp))) :=
    List.mergeSort_perm _ _
  refine ⟨hrt, ?_, ?_, ?_, ?_, ?_, ?_⟩
  · rw [hc1]
  · intro m hm
    rw [hc1]
    exact List.mem_mergeSort.mpr hm
  · rw [hc1, hc2]
  · rw [hc1, hc2]
    exact ((hids.perm ((hperm2.trans hperm1).map Mensaje.id).symm))
  · rw [hc1, hc2]
    exact hperm2
  · intro rs st
    have hcount := cargar_fold_cuenta rs st 0
    simp only [SistemaMensajeria.cargar_mensajes_desde_disco, List.length_mergeSort]
    omega

/-- Witness for C3 at a concrete two-message log with distinct ids: the
first load into an empty history returns 2, the second load of the same log
returns 0. -/
theorem c3_cargar_roundtrip_idempotente_witness :
    (SistemaMensajeria.cargar_mensajes_desde_disco
      ([⟨1, 5, "A", none, "a", "x", none, []⟩,
        ⟨2, 3, "B", some "A", "b", "y", some 1, []⟩].map Mensaje.to_dict) []).2 = 2 ∧
    (SistemaMensajeria.cargar_mensajes_desde_disco
      ([⟨1, 5, "A", none, "a", "x", none, []⟩,
        ⟨2, 3, "B", some "A", "b", "y", some 1, []⟩].map Mensaje.to_dict)
      (SistemaMensajeria.cargar_mensajes_desde_disco
        ([⟨1, 5, "A", none, "a", "x", none, []⟩,
          ⟨2, 3, "B", some "A", "b", "y", some 1, []⟩].map Mensaje.to_dict)
        []).1).2 = 0 := by
  have h := c3_cargar_roundtrip_idempotente
    [⟨1, 5, "A", none, "a", "x", none, []⟩,
     ⟨2, 3, "B", some "A", "b", "y", some 1, []⟩] (by decide)
  exact ⟨h.2.1, h.2.2.2.1⟩

/-- Claim C7 exposes a code bug: `obtener_historial_mensajes` with
`solo_propios=True` passes the agent's name as sender filter AND recipient
filter, and `obtener_mensajes` applies the filters conjunctively — so only
self-addressed messages survive, not the agent's own traffic.  The method's
docstring ("solo incluye mensajes enviados o recibidos por este agente") and
the spec promise sent-OR-received.  Evaluated at the failing input: the
history holds exactly one message, sent by agent "A" to "B"; agent "A"'s own
history with `solo_propios=True` comes back empty although the same call
with `solo_propios=False` returns the message. -/
theorem c7_solo_propios_pierde_trafico_propio :
    Agente.obtener_historial_mensajes
      [⟨1, 1, "A", some "B", "consulta", "hola", none, []⟩] "A" 10 [] true = [] ∧
    Agente.obtener_historial_mensajes
      [⟨1, 1, "A", some "B", "consulta", "hola", none, []⟩] "A" 10 [] false =
      [⟨1, 1, "A", some "B", "consulta", "hola", none, []⟩] := by
  constructor <;>
    simp [Agente.obtener_historial_mensajes, SistemaMensajeria.obtener_mensajes,
      List.filter, Mensaje.to_dict]
